import Mathlib

/-!
# Kiosk appointment backend (`examples/vulnerable_app.cpp`)

A shallow embedding of the five free functions of the file and of `main`.

* A C `char` is a `Char`; text is a `List Char`.
* A `char` array is represented by the bytes written into it from index 0 on;
  the C string such an array holds is what precedes its first NUL (`cstr`).
* The process environment is the record `World`: the unread part of standard
  input, what has been written to standard output, the log file
  `/var/log/booking.log` (whether it opens, what it holds, how many more bytes
  its device accepts), the heap, and the value an uninitialised stack slot
  happens to hold.
* `World.trace` is a ghost log of function entries, stores through pointers and
  reads of uninitialised locals.
-/

namespace KioskApp

/-! ## Characters and C strings -/

/-- The string terminator `'\0'`. -/
def NUL : Char := Char.ofNat 0

/-- The C string held by a `char` array: the bytes before its first NUL. -/
def cstr (mem : List Char) : List Char :=
  mem.takeWhile (fun c => c != NUL)

/-- The name part of an input: the characters before the first newline. -/
def namePart (input : List Char) : List Char :=
  input.takeWhile (fun c => c != '\n')

/-! ## Ghost events -/

/-- A call of one of the functions of the translation unit, with its argument. -/
inductive Call where
  | loadCitizenData
  | logToFile (message : List Char)
  | allocateUnsafeMemory
  | process
  | runKioskLoop
  deriving DecidableEq

/-- Ghost events recorded while the program runs. -/
inductive Event where
  /-- Entry into a function. -/
  | call (c : Call)
  /-- A store `p[idx] = val`; `p = none` is the null pointer. -/
  | store (p : Option Nat) (idx : Nat) (val : Int)
  /-- A read of a local that was declared without initialiser and never assigned. -/
  | uninitRead (var : String)
  deriving DecidableEq

/-! ## The environment -/

/-- The size `sizeof(int)` of an `int`, in bytes. -/
def sizeofInt : Nat := 4

/-- A live heap block: start address, size in bytes, and its `int` cells
(`none` is an indeterminate cell). -/
structure Block where
  addr : Nat
  size : Nat
  cells : List (Option Int)
  deriving DecidableEq

/-- The environment the program runs in. -/
structure World where
  /-- Unread standard input. -/
  stdin : List Char
  /-- Everything written to standard output so far. -/
  stdout : List Char
  /-- Whether `fopen("/var/log/booking.log", "a")` succeeds. -/
  logOpenable : Bool
  /-- Content of `/var/log/booking.log`. -/
  logContent : List Char
  /-- Bytes the device of the log file still accepts; a write of more than that
  fails after this many bytes (0: nothing can be written, as on a full disk). -/
  logAccepts : Nat
  /-- Bytes the allocator can still hand out. -/
  heapFree : Nat
  /-- Address the allocator hands out next. -/
  heapBrk : Nat
  /-- Blocks obtained from `malloc` and not yet passed to `free`. -/
  heapLive : List Block
  /-- Value found in an uninitialised `int` stack slot. -/
  stackGarbage : Int
  /-- Ghost trace. -/
  trace : List Event
  deriving DecidableEq

/-- Record a ghost event. -/
def World.emit (w : World) (e : Event) : World :=
  { w with trace := w.trace ++ [e] }

/-- Record the entry into a function. -/
def World.enter (w : World) (c : Call) : World :=
  w.emit (Event.call c)

/-- The effect of `std::cout << s`. -/
def World.cout (w : World) (s : List Char) : World :=
  { w with stdout := w.stdout ++ s }

/-- How a call ends: it returns a value, or it stops at a store through the
null pointer. -/
inductive Outcome (α : Type) where
  | returned (val : α) (w : World)
  | nullDeref (w : World)
  deriving DecidableEq

/-- The environment in which a call ended. -/
def Outcome.world {α : Type} : Outcome α → World
  | Outcome.returned _ w => w
  | Outcome.nullDeref w => w

/-! ## Library functions used by the program -/

/-- What `istream::getline` leaves behind. -/
structure GetlineResult where
  /-- Characters placed in `s[0]`, `s[1]`, ... (terminator not included). -/
  stored : List Char
  /-- Input left unread. -/
  rest : List Char
  /-- Number of characters extracted (the delimiter counts). -/
  gcount : Nat
  eofbit : Bool
  failbit : Bool
  deriving DecidableEq

/-- The extraction loop of `istream::getline(s, n)` with `room = n - 1` free
places left. The tests are made in the order of the standard: end of file,
then delimiter (extracted, not stored), then no room left (`failbit`). -/
def getlineLoop : Nat → List Char → GetlineResult
  | _, [] => { stored := [], rest := [], gcount := 0, eofbit := true, failbit := false }
  | room, c :: cs =>
    if c = '\n' then
      { stored := [], rest := cs, gcount := 1, eofbit := false, failbit := false }
    else
      match room with
      | 0 => { stored := [], rest := c :: cs, gcount := 0, eofbit := false, failbit := true }
      | r + 1 =>
        let res := getlineLoop r cs
        { res with stored := c :: res.stored, gcount := res.gcount + 1 }

/-- The call `std::cin.getline(s, n)`: the bytes written into `s` from index 0 on
(the stored characters and, when `n > 0`, the terminator) and the stream
afterwards. Extracting nothing at all sets `failbit`. -/
def istream_getline (n : Nat) (input : List Char) : List Char × GetlineResult :=
  let res := getlineLoop (n - 1) input
  let res := { res with failbit := res.failbit || res.gcount == 0 }
  (if n = 0 then [] else res.stored ++ [NUL], res)

/-- Expansion of a `printf` format: `%s` consumes the next argument, the C
string its pointer designates, and inserts it unchanged; `%%` is a percent
sign; every other character is copied. -/
def formatS : List Char → List (List Char) → List Char
  | [], _ => []
  | '%' :: 's' :: fmt, a :: args => a ++ formatS fmt args
  | '%' :: 's' :: fmt, [] => formatS fmt []
  | '%' :: '%' :: fmt, args => '%' :: formatS fmt args
  | c :: fmt, args => c :: formatS fmt args

/-- What `snprintf` leaves behind: the bytes written into the destination and
the return value (the length of the complete expansion). -/
structure SnprintfResult where
  written : List Char
  ret : Nat
  deriving DecidableEq

/-- The call `snprintf(dst, size, fmt, args...)`: at most `size - 1` characters
of the expansion followed by the terminator. -/
def snprintf (size : Nat) (fmt : List Char) (args : List (List Char)) : SnprintfResult :=
  let full := formatS fmt args
  { written := if size = 0 then [] else full.take (size - 1) ++ [NUL],
    ret := full.length }

/-! ## `loadCitizenData` -/

/-- Capacity of `char name[50]`. -/
def nameCap : Nat := 50

/-- Capacity of `char buffer[100]`. -/
def bufferCap : Nat := 100

/-- The prompt. -/
def promptText : List Char := "Enter your full name: ".toList

/-- The format handed to `snprintf`. -/
def greetingFormat : List Char := "Hello %s, your appointment is booked.".toList

/-- The locals of `loadCitizenData` when it returns. -/
structure GreeterLocals where
  /-- Bytes written into `name`, from index 0 on. -/
  name : List Char
  /-- Bytes written into `buffer`, from index 0 on. -/
  buffer : List Char
  /-- Return value of `snprintf`. -/
  formatted : Nat
  deriving DecidableEq

/-- Body of `loadCitizenData`, with its locals exposed. -/
def loadCitizenDataBody (w : World) : GreeterLocals × World :=
  let w := w.enter Call.loadCitizenData
  let w := w.cout promptText
  let r := istream_getline nameCap w.stdin
  let name := r.1
  let w := { w with stdin := r.2.rest }
  let s := snprintf bufferCap greetingFormat [cstr name]
  let buffer := s.written
  let w := w.cout (cstr buffer)
  let w := w.cout ['\n']
  ({ name := name, buffer := buffer, formatted := s.ret }, w)

/-- The function `void loadCitizenData()`. -/
def loadCitizenData (w : World) : Unit × World :=
  ((), (loadCitizenDataBody w).2)

/-- The greeting `loadCitizenData` prints: the C string held by `buffer`. -/
def greetingOf (w : World) : List Char :=
  cstr (loadCitizenDataBody w).1.buffer

/-- The name `loadCitizenData` stores: the bytes of `name` before the
terminator `getline` appends. -/
def storedName (w : World) : List Char :=
  (loadCitizenDataBody w).1.name.dropLast

/-! ## `logToFile` -/

/-- The format handed to `fprintf`. -/
def logFormat : List Char := "[LOG] %s\n".toList

/-- The call `fprintf(f, fmt, args...)` on the log stream opened for appending.
The expansion reaches the file as far as the device accepts it; the result is
the number of characters when all of them arrived and negative otherwise. The
buffer of the stream is not modelled: in the program `fclose` follows at once. -/
def fprintf (fmt : List Char) (args : List (List Char)) (w : World) : Int × World :=
  let text := formatS fmt args
  (if text.length ≤ w.logAccepts then (text.length : Int) else -1,
    { w with
      logContent := w.logContent ++ text.take w.logAccepts,
      logAccepts := w.logAccepts - text.length })

/-- The call `fclose(f)` on the log stream: the stream is released, the file
keeps what has reached it. -/
def fclose (w : World) : Int × World :=
  (0, w)

/-- The function `void logToFile(const char* message)`; `message` is the C string
the pointer designates. When `fopen` yields a stream, `fprintf` writes the
expanded format and `fclose` releases the stream, the results of both being
dropped; otherwise the body of the `if` is skipped. -/
def logToFile (message : List Char) (w : World) : Unit × World :=
  let w := w.enter (Call.logToFile message)
  let f := w.logOpenable
  if f then
    let w := (fprintf logFormat [message] w).2
    let w := (fclose w).2
    ((), w)
  else
    ((), w)

/-! ## `allocateUnsafeMemory` -/

/-- The call `malloc(size)`: a fresh block of indeterminate cells when `size`
bytes are available, the null pointer (`none`) otherwise. -/
def malloc (size : Nat) (w : World) : Option Nat × World :=
  if size ≤ w.heapFree then
    (some w.heapBrk,
      { w with
        heapFree := w.heapFree - size,
        heapBrk := w.heapBrk + size,
        heapLive :=
          { addr := w.heapBrk, size := size,
            cells := List.replicate (size / sizeofInt) none } :: w.heapLive })
  else
    (none, w)

/-- Set cell `idx` of the most recent live block that starts at `a`. -/
def setCell (a idx : Nat) (v : Int) : List Block → List Block
  | [] => []
  | b :: bs =>
    if b.addr = a then { b with cells := b.cells.set idx (some v) } :: bs
    else b :: setCell a idx v bs

/-- The store `p[idx] = v`. Through the null pointer it does not complete. -/
def storeInt (p : Option Nat) (idx : Nat) (v : Int) (w : World) : Outcome Unit :=
  let w := w.emit (Event.store p idx v)
  match p with
  | none => Outcome.nullDeref w
  | some a => Outcome.returned () { w with heapLive := setCell a idx v w.heapLive }

/-- The function `void allocateUnsafeMemory()`. -/
def allocateUnsafeMemory (w : World) : Outcome Unit :=
  let w := w.enter Call.allocateUnsafeMemory
  let r := malloc (100 * sizeofInt) w
  let data := r.1
  storeInt data 0 42 r.2

/-! ## `process` -/

/-- Reading a local `int`: a slot that was never assigned (`none`) yields
whatever the stack holds, and the read is recorded. -/
def readLocal (var : String) (slot : Option Int) (w : World) : Int × World :=
  match slot with
  | some v => (v, w)
  | none => (w.stackGarbage, w.emit (Event.uninitRead var))

/-- The line printed for a guest. -/
def guestText : List Char := "Processing as guest...".toList

/-- The function `void process()`. -/
def process (w : World) : Unit × World :=
  let w := w.enter Call.process
  let status : Option Int := none
  let r := readLocal "status" status w
  if r.1 = 0 then
    ((), (r.2.cout guestText).cout ['\n'])
  else
    ((), r.2)

/-! ## `runKioskLoop` -/

/-- The loop `while (1) { std::cout << "."; }` run for at most `fuel`
iterations; `none` means the loop has not been left. -/
def kioskLoop : Nat → World → Option World
  | 0, _ => none
  | fuel + 1, w => kioskLoop fuel (w.cout ['.'])

/-- The function `void runKioskLoop()`. -/
def runKioskLoop (fuel : Nat) (w : World) : Option (Unit × World) :=
  (kioskLoop fuel (w.enter Call.runKioskLoop)).map (fun w => ((), w))

/-! ## `main` -/

/-- The message `main` logs. -/
def executedMessage : List Char := "Appointment system executed.".toList

/-- An environment at program start with the given standard input. -/
def World.start (input : List Char) : World :=
  { stdin := input, stdout := [], logOpenable := true, logContent := [], logAccepts := 4096,
    heapFree := 4096, heapBrk := 1024, heapLive := [], stackGarbage := 0, trace := [] }

/-- As `World.start`, but the log file cannot be opened. -/
def World.startNoLog (input : List Char) : World :=
  { World.start input with logOpenable := false }

/-- As `World.start`, but the log file opens on a device that accepts nothing more. -/
def World.startFullDisk (input : List Char) : World :=
  { World.start input with logAccepts := 0 }

/-- As `World.start`, but the allocator has nothing left. -/
def World.startNoHeap (input : List Char) : World :=
  { World.start input with heapFree := 0 }

/-! ## Auxiliary facts -/

theorem cstr_cons_nul (cs : List Char) : cstr (NUL :: cs) = [] := by
  simp [cstr, List.takeWhile_cons]

theorem cstr_cons_ne (c : Char) (cs : List Char) (h : c ≠ NUL) :
    cstr (c :: cs) = c :: cstr cs := by
  simp [cstr, List.takeWhile_cons, h]

theorem namePart_cons_nl (cs : List Char) : namePart ('\n' :: cs) = [] := by
  simp [namePart, List.takeWhile_cons]

theorem namePart_cons_ne (c : Char) (cs : List Char) (h : c ≠ '\n') :
    namePart (c :: cs) = c :: namePart cs := by
  simp [namePart, List.takeWhile_cons, h]

theorem cstr_snoc_nul (l : List Char) : cstr (l ++ [NUL]) = cstr l := by
  induction l with
  | nil => simp [cstr_cons_nul, cstr]
  | cons c cs ih =>
    by_cases h : c = NUL
    · subst h
      simp [cstr_cons_nul]
    · simp [cstr_cons_ne, h, ih]

theorem cstr_eq_self (l : List Char) (h : NUL ∉ l) : cstr l = l := by
  induction l with
  | nil => rfl
  | cons c cs ih =>
    have hc : c ≠ NUL := fun e => h (by simp [e])
    have hcs : NUL ∉ cs := fun e => h (by simp [e])
    simp [cstr_cons_ne, hc, ih hcs]

theorem nul_not_mem_cstr (l : List Char) : NUL ∉ cstr l := by
  induction l with
  | nil => simp [cstr]
  | cons c cs ih =>
    by_cases h : c = NUL
    · subst h
      simp [cstr_cons_nul]
    · have h2 : ¬ NUL = c := fun e => h e.symm
      simp [cstr_cons_ne, h, h2, ih]

theorem cstr_length_le (l : List Char) : (cstr l).length ≤ l.length := by
  induction l with
  | nil => simp [cstr]
  | cons c cs ih =>
    by_cases h : c = NUL
    · subst h
      simp [cstr_cons_nul]
    · simp [cstr_cons_ne, h, ih]

theorem getlineLoop_stored (room : Nat) (input : List Char) :
    (getlineLoop room input).stored = (namePart input).take room := by
  induction input generalizing room with
  | nil => simp [getlineLoop, namePart]
  | cons c cs ih =>
    by_cases h : c = '\n'
    · subst h
      cases room <;> simp [getlineLoop, namePart_cons_nl]
    · cases room with
      | zero => simp [getlineLoop, h]
      | succ r => simp [getlineLoop, namePart_cons_ne, h, ih r]

theorem take_namePart (input : List Char) (n : Nat) (h : n ≤ (namePart input).length) :
    (namePart input).take n = input.take n := by
  induction input generalizing n with
  | nil => simp [namePart]
  | cons c cs ih =>
    cases n with
    | zero => simp
    | succ m =>
      by_cases hc : c = '\n'
      · subst hc
        simp [namePart_cons_nl] at h
      · rw [namePart_cons_ne c cs hc] at h ⊢
        have h2 : m ≤ (namePart cs).length := by simpa using h
        simp [ih m h2]

theorem formatS_greeting (s : List Char) :
    formatS greetingFormat [s]
      = "Hello ".toList ++ s ++ ", your appointment is booked.".toList := by
  simp [formatS, greetingFormat]

theorem formatS_log (s : List Char) :
    formatS logFormat [s] = "[LOG] ".toList ++ s ++ ['\n'] := by
  simp [formatS, logFormat]

theorem name_written (w : World) :
    (loadCitizenDataBody w).1.name = (namePart w.stdin).take 49 ++ [NUL] := by
  simp [loadCitizenDataBody, istream_getline, nameCap, getlineLoop_stored, World.cout,
    World.enter, World.emit]

theorem buffer_written (w : World) :
    (loadCitizenDataBody w).1.buffer
      = "Hello ".toList ++ cstr ((namePart w.stdin).take 49)
          ++ ", your appointment is booked.".toList ++ [NUL] := by
  have hlen : (cstr ((namePart w.stdin).take 49)).length ≤ 49 :=
    Nat.le_trans (cstr_length_le _) (by simp [List.length_take])
  have hname := name_written w
  have hfull : ("Hello ".toList ++ cstr ((namePart w.stdin).take 49)
      ++ ", your appointment is booked.".toList).length ≤ 99 := by
    simp [List.length_append]
    omega
  have hb : (loadCitizenDataBody w).1.buffer
      = (snprintf bufferCap greetingFormat [cstr (loadCitizenDataBody w).1.name]).written := rfl
  rw [hb, hname, cstr_snoc_nul]
  simp only [snprintf, formatS_greeting, bufferCap]
  rw [List.take_of_length_le hfull]
  simp

theorem greeting_printed (w : World) :
    greetingOf w
      = "Hello ".toList ++ cstr ((namePart w.stdin).take 49)
          ++ ", your appointment is booked.".toList := by
  have h1 : NUL ∉ "Hello ".toList := by decide
  have h2 : NUL ∉ ", your appointment is booked.".toList := by decide
  have h3 := nul_not_mem_cstr ((namePart w.stdin).take 49)
  have hno : NUL ∉ "Hello ".toList ++ cstr ((namePart w.stdin).take 49)
      ++ ", your appointment is booked.".toList := by
    intro hmem
    rcases List.mem_append.1 hmem with h | h
    · rcases List.mem_append.1 h with h | h
      · exact h1 h
      · exact h3 h
    · exact h2 h
  unfold greetingOf
  rw [buffer_written, cstr_snoc_nul, cstr_eq_self _ hno]

theorem greeting_length_le (w : World) : (greetingOf w).length ≤ 35 + 49 := by
  have hlen : (cstr ((namePart w.stdin).take 49)).length ≤ 49 :=
    Nat.le_trans (cstr_length_le _) (by simp [List.length_take])
  rw [greeting_printed]
  simp [List.length_append]
  omega

theorem stdout_after_greeting (w : World) :
    (loadCitizenData w).2.stdout = w.stdout ++ promptText ++ greetingOf w ++ ['\n'] := by
  simp [loadCitizenData, greetingOf, loadCitizenDataBody, World.cout, World.enter, World.emit]

theorem formatted_eq (w : World) :
    (loadCitizenDataBody w).1.formatted
      = ("Hello ".toList ++ cstr ((namePart w.stdin).take 49)
          ++ ", your appointment is booked.".toList).length := by
  have hf : (loadCitizenDataBody w).1.formatted
      = (snprintf bufferCap greetingFormat [cstr (loadCitizenDataBody w).1.name]).ret := rfl
  rw [hf, name_written, cstr_snoc_nul]
  simp only [snprintf, formatS_greeting]

theorem kioskLoop_never_left (fuel : Nat) (w : World) : kioskLoop fuel w = none := by
  induction fuel generalizing w with
  | zero => rfl
  | succ n ih => simp [kioskLoop, ih]

theorem runKioskLoop_never_returns (fuel : Nat) (w : World) :
    runKioskLoop fuel w = none := by
  simp [runKioskLoop, kioskLoop_never_left]

/-! ## The claims -/

/-- C1 (as stated, refuted): the name `a\0b` has length 3, all of it is stored in
`name`, yet the greeting printed is `Hello a, your appointment is booked.`: `%s`
stops at the NUL, so the greeting does not hold the full input name. -/
theorem loadCitizenData_nul_cuts_greeting :
    (namePart (World.start ['a', NUL, 'b', '\n']).stdin).length ≤ 49 ∧
    storedName (World.start ['a', NUL, 'b', '\n'])
      = namePart (World.start ['a', NUL, 'b', '\n']).stdin ∧
    greetingOf (World.start ['a', NUL, 'b', '\n'])
      = "Hello a, your appointment is booked.".toList ∧
    greetingOf (World.start ['a', NUL, 'b', '\n'])
      ≠ "Hello ".toList ++ namePart (World.start ['a', NUL, 'b', '\n']).stdin
          ++ ", your appointment is booked.".toList := by
  decide

/-- C1 (amended): for every input whose name part has length at most 49 and holds
no NUL character, the empty name included, `loadCitizenData` stores the whole
name, the greeting it prints is exactly `"Hello " ++ name ++ ", your appointment
is booked."`, standard output receives the prompt, that greeting and a newline,
and the length `snprintf` reports is below the 100 bytes of `buffer`. -/
theorem loadCitizenData_short_name (w : World)
    (hlen : (namePart w.stdin).length ≤ 49) (hnul : NUL ∉ namePart w.stdin) :
    storedName w = namePart w.stdin ∧
    greetingOf w
      = "Hello ".toList ++ namePart w.stdin ++ ", your appointment is booked.".toList ∧
    (loadCitizenData w).2.stdout = w.stdout ++ promptText ++ greetingOf w ++ ['\n'] ∧
    (loadCitizenDataBody w).1.formatted < bufferCap := by
  have htake : (namePart w.stdin).take 49 = namePart w.stdin :=
    List.take_of_length_le hlen
  refine ⟨?_, ?_, stdout_after_greeting w, ?_⟩
  · simp [storedName, name_written, htake]
  · rw [greeting_printed, htake, cstr_eq_self _ hnul]
  · rw [formatted_eq, htake, cstr_eq_self _ hnul]
    simp [List.length_append, bufferCap]
    omega

/-- Witness for C1: the name `Ann Lee`, and the empty name. -/
theorem loadCitizenData_short_name_witness :
    (storedName (World.start "Ann Lee\n".toList)
        = namePart (World.start "Ann Lee\n".toList).stdin ∧
      greetingOf (World.start "Ann Lee\n".toList)
        = "Hello ".toList ++ namePart (World.start "Ann Lee\n".toList).stdin
            ++ ", your appointment is booked.".toList ∧
      (loadCitizenData (World.start "Ann Lee\n".toList)).2.stdout
        = (World.start "Ann Lee\n".toList).stdout ++ promptText
            ++ greetingOf (World.start "Ann Lee\n".toList) ++ ['\n'] ∧
      (loadCitizenDataBody (World.start "Ann Lee\n".toList)).1.formatted < bufferCap) ∧
    namePart (World.start "Ann Lee\n".toList).stdin = "Ann Lee".toList ∧
    greetingOf (World.start "Ann Lee\n".toList)
      = "Hello Ann Lee, your appointment is booked.".toList ∧
    (storedName (World.start ['\n']) = namePart (World.start ['\n']).stdin ∧
      greetingOf (World.start ['\n'])
        = "Hello ".toList ++ namePart (World.start ['\n']).stdin
            ++ ", your appointment is booked.".toList ∧
      (loadCitizenData (World.start ['\n'])).2.stdout
        = (World.start ['\n']).stdout ++ promptText ++ greetingOf (World.start ['\n'])
            ++ ['\n'] ∧
      (loadCitizenDataBody (World.start ['\n'])).1.formatted < bufferCap) :=
  ⟨loadCitizenData_short_name (World.start "Ann Lee\n".toList) (by decide) (by decide),
    by decide, by decide,
    loadCitizenData_short_name (World.start ['\n']) (by decide) (by decide)⟩

/-- C2: for every input whose name part is longer than 49 characters, the name
`loadCitizenData` stores is exactly the first 49 characters of the input, and the
bytes written into `name` are these 49 characters and the terminator: 50 bytes,
the capacity of `char name[50]`. -/
theorem loadCitizenData_long_name (w : World) (hlen : 49 < (namePart w.stdin).length) :
    storedName w = w.stdin.take 49 ∧
    (loadCitizenDataBody w).1.name = w.stdin.take 49 ++ [NUL] ∧
    (loadCitizenDataBody w).1.name.length = 50 ∧
    (loadCitizenDataBody w).1.name.length ≤ nameCap := by
  have htake : (namePart w.stdin).take 49 = w.stdin.take 49 :=
    take_namePart w.stdin 49 (Nat.le_of_lt hlen)
  have hl : (w.stdin.take 49).length = 49 := by
    rw [← htake, List.length_take]
    omega
  refine ⟨?_, ?_, ?_, ?_⟩
  · simp [storedName, name_written, htake]
  · rw [name_written, htake]
  · rw [name_written, htake, List.length_append, hl]
    rfl
  · rw [name_written, htake, List.length_append, hl]
    decide

set_option maxRecDepth 8000 in
/-- Witness for C2: sixty times `x`, then a newline. -/
theorem loadCitizenData_long_name_witness :
    storedName (World.start (List.replicate 60 'x' ++ ['\n']))
      = (World.start (List.replicate 60 'x' ++ ['\n'])).stdin.take 49 ∧
    (loadCitizenDataBody (World.start (List.replicate 60 'x' ++ ['\n']))).1.name
      = (World.start (List.replicate 60 'x' ++ ['\n'])).stdin.take 49 ++ [NUL] ∧
    (loadCitizenDataBody (World.start (List.replicate 60 'x' ++ ['\n']))).1.name.length = 50 ∧
    (loadCitizenDataBody (World.start (List.replicate 60 'x' ++ ['\n']))).1.name.length
      ≤ nameCap :=
  loadCitizenData_long_name (World.start (List.replicate 60 'x' ++ ['\n'])) (by decide)

/-- C3 (as stated, refuted): the log file opens and the message has no newline,
but the device accepts nothing more; after `logToFile` the file holds what it
held before, not that followed by `[LOG] Appointment system executed.`. -/
theorem logToFile_full_disk_appends_nothing :
    (World.startFullDisk []).logOpenable = true ∧
    '\n' ∉ executedMessage ∧
    (logToFile executedMessage (World.startFullDisk [])).2.logContent
      = (World.startFullDisk []).logContent ∧
    (logToFile executedMessage (World.startFullDisk [])).2.logContent
      ≠ (World.startFullDisk []).logContent
          ++ ("[LOG] ".toList ++ executedMessage ++ ['\n']) := by
  decide

/-- C3 (amended): for every message without a newline, when the log file can be
opened and its device accepts the whole line, `logToFile` leaves the file equal
to its previous content followed by `"[LOG] " ++ message` and a newline, which
is exactly one line; in particular, where the 35 characters fit, logging
`Appointment system executed.` appends the single line
`[LOG] Appointment system executed.` after the unchanged earlier content. -/
theorem logToFile_appends_one_line (message : List Char) (w : World)
    (hopen : w.logOpenable = true)
    (hroom : ("[LOG] ".toList ++ message ++ ['\n']).length ≤ w.logAccepts)
    (hnl : '\n' ∉ message) :
    (logToFile message w).2.logContent
      = w.logContent ++ ("[LOG] ".toList ++ message ++ ['\n']) ∧
    List.count '\n' ("[LOG] ".toList ++ message ++ ['\n']) = 1 ∧
    (35 ≤ w.logAccepts →
      (logToFile executedMessage w).2.logContent
        = w.logContent ++ "[LOG] Appointment system executed.\n".toList) := by
  refine ⟨?_, ?_, ?_⟩
  · simp only [logToFile, fprintf, fclose, World.enter, World.emit, hopen, formatS_log,
      if_true]
    rw [List.take_of_length_le hroom]
  · have h1 : List.count '\n' "[LOG] ".toList = 0 := by decide
    have h2 : List.count '\n' message = 0 := List.count_eq_zero.2 hnl
    simp [List.count_append, h1, h2]
  · intro h35
    have h : formatS logFormat [executedMessage]
        = "[LOG] Appointment system executed.\n".toList := by decide
    have hlen : ("[LOG] Appointment system executed.\n".toList).length ≤ w.logAccepts := h35
    simp only [logToFile, fprintf, fclose, World.enter, World.emit, hopen, h, if_true]
    rw [List.take_of_length_le hlen]

/-- Witness for C3: logging `Appointment system executed.` to an empty log. -/
theorem logToFile_appends_one_line_witness :
    (logToFile executedMessage (World.start [])).2.logContent
      = (World.start []).logContent ++ ("[LOG] ".toList ++ executedMessage ++ ['\n']) ∧
    List.count '\n' ("[LOG] ".toList ++ executedMessage ++ ['\n']) = 1 ∧
    (logToFile executedMessage (World.start [])).2.logContent
      = (World.start []).logContent ++ "[LOG] Appointment system executed.\n".toList :=
  have h := logToFile_appends_one_line executedMessage (World.start [])
    (by decide) (by decide) (by decide)
  ⟨h.1, h.2.1, h.2.2 (by decide)⟩

/-- C4 (as stated, refuted): with the log file unopenable in one environment and
openable in the other, `logToFile` hands its caller the same result. -/
theorem logToFile_failure_indistinguishable :
    (World.startNoLog []).logOpenable = false ∧
    (World.start []).logOpenable = true ∧
    (logToFile executedMessage (World.startNoLog [])).1
      = (logToFile executedMessage (World.start [])).1 := by
  decide

/-- C4 (amended): for every message, when the log file cannot be opened,
`logToFile` reports nothing: it returns the same (void) result as any other
call, a successful one included, and the environment it leaves is the one it
was entered in (standard output included), so the failure is skipped silently. -/
theorem logToFile_silent_on_failure (message : List Char) (w wOk : World)
    (hfail : w.logOpenable = false) :
    (logToFile message w).1 = (logToFile message wOk).1 ∧
    (logToFile message w).2 = w.enter (Call.logToFile message) := by
  constructor
  · rfl
  · simp [logToFile, World.enter, World.emit, hfail]

/-- Witness for C4 (amended). -/
theorem logToFile_silent_on_failure_witness :
    (logToFile executedMessage (World.startNoLog [])).1
      = (logToFile executedMessage (World.start [])).1 ∧
    (logToFile executedMessage (World.startNoLog [])).2
      = (World.startNoLog []).enter (Call.logToFile executedMessage) :=
  logToFile_silent_on_failure executedMessage (World.startNoLog []) (World.start [])
    (by decide)

/-- C5: for every message, when the log file cannot be opened, `logToFile`
appends nothing: the content of the log file after the call is its content
before the call. -/
theorem logToFile_unopened_appends_nothing (message : List Char) (w : World)
    (hfail : w.logOpenable = false) :
    (logToFile message w).2.logContent = w.logContent := by
  simp [logToFile, World.enter, World.emit, hfail]

/-- Witness for C5. -/
theorem logToFile_unopened_appends_nothing_witness :
    (logToFile executedMessage (World.startNoLog [])).2.logContent
      = (World.startNoLog []).logContent :=
  logToFile_unopened_appends_nothing executedMessage (World.startNoLog []) (by decide)

/-- C6 (the code at the failing input): `allocateUnsafeMemory` executes the store
`data[0] = 42` on every run, through whatever `malloc` returned; with nothing
left to allocate `malloc` returns the null pointer and the call ends in the
store through it. -/
theorem allocateUnsafeMemory_stores_through_null :
    (∀ w : World,
      Event.store (malloc (100 * sizeofInt) (w.enter Call.allocateUnsafeMemory)).1 0 42
        ∈ (allocateUnsafeMemory w).world.trace) ∧
    (malloc (100 * sizeofInt)
      ((World.startNoHeap []).enter Call.allocateUnsafeMemory)).1 = none ∧
    allocateUnsafeMemory (World.startNoHeap [])
      = Outcome.nullDeref
          (((World.startNoHeap []).enter Call.allocateUnsafeMemory).emit
            (Event.store none 0 42)) := by
  refine ⟨?_, by decide, by decide⟩
  intro w
  by_cases h : 100 * sizeofInt ≤ w.heapFree
  · simp [allocateUnsafeMemory, malloc, storeInt, Outcome.world, World.enter, World.emit, h]
  · simp [allocateUnsafeMemory, malloc, storeInt, Outcome.world, World.enter, World.emit, h]

/-- C7 (the code on every input, and at program start): `process` compares
`status` with 0 although `status` was never assigned: the read of the
uninitialised local is the only event between entry and return, and whether the
guest line is printed depends on what the stack slot happens to hold. -/
theorem process_reads_uninitialised_status :
    (∀ w : World,
      (process w).2.trace
        = w.trace ++ [Event.call Call.process, Event.uninitRead "status"] ∧
      (process w).2.stdout
        = if w.stackGarbage = 0 then w.stdout ++ guestText ++ ['\n'] else w.stdout) ∧
    (process (World.start [])).2.trace
      = [Event.call Call.process, Event.uninitRead "status"] := by
  refine ⟨?_, by decide⟩
  intro w
  by_cases h : w.stackGarbage = 0
  · simp [process, readLocal, World.enter, World.emit, World.cout, h]
  · simp [process, readLocal, World.enter, World.emit, World.cout, h]

/-- C9 (as stated, refuted): at program start the allocation succeeds, and after
`allocateUnsafeMemory` has returned the live blocks are not those from before
the call. -/
theorem allocateUnsafeMemory_leaks_at_start :
    (malloc (100 * sizeofInt)
      ((World.start []).enter Call.allocateUnsafeMemory)).1 = some 1024 ∧
    (allocateUnsafeMemory (World.start [])).world.heapLive
      ≠ (World.start []).heapLive := by
  decide

/-- C9 (amended): when the allocation succeeds, `allocateUnsafeMemory` returns
without releasing the block: the live blocks after the call are the live blocks
before it together with the new block of 100 integers, whose first cell holds
42 and whose other cells are indeterminate. -/
theorem allocateUnsafeMemory_keeps_block (w : World)
    (hfit : 100 * sizeofInt ≤ w.heapFree) :
    allocateUnsafeMemory w = Outcome.returned () (allocateUnsafeMemory w).world ∧
    (allocateUnsafeMemory w).world.heapLive
      = { addr := w.heapBrk, size := 100 * sizeofInt,
          cells := some 42 :: List.replicate 99 none } :: w.heapLive := by
  have hc : List.replicate (100 * sizeofInt / sizeofInt) (none : Option Int)
      = none :: List.replicate 99 none := by decide
  constructor
  · simp [allocateUnsafeMemory, malloc, storeInt, Outcome.world, World.enter, World.emit, hfit]
  · simp [allocateUnsafeMemory, malloc, storeInt, setCell, Outcome.world, World.enter,
      World.emit, hfit, hc]

/-- Witness for C9 (amended). -/
theorem allocateUnsafeMemory_keeps_block_witness :
    allocateUnsafeMemory (World.start [])
      = Outcome.returned () (allocateUnsafeMemory (World.start [])).world ∧
    (allocateUnsafeMemory (World.start [])).world.heapLive
      = { addr := (World.start []).heapBrk, size := 100 * sizeofInt,
          cells := some 42 :: List.replicate 99 none } :: (World.start []).heapLive :=
  allocateUnsafeMemory_keeps_block (World.start []) (by decide)

set_option maxRecDepth 8000 in
/-- C10 (as stated, refuted): for the input line `x`, NUL, then 58 times `y`, the
greeting is `Hello x, your appointment is booked.` and not `"Hello "`, the first
49 characters of the name, `", your appointment is booked."`. -/
theorem greeting_of_long_name_with_nul :
    greetingOf (World.start ('x' :: NUL :: (List.replicate 58 'y' ++ ['\n'])))
      = "Hello x, your appointment is booked.".toList ∧
    greetingOf (World.start ('x' :: NUL :: (List.replicate 58 'y' ++ ['\n'])))
      ≠ "Hello ".toList
          ++ (namePart ('x' :: NUL :: (List.replicate 58 'y' ++ ['\n']))).take
              (min 49 (namePart ('x' :: NUL :: (List.replicate 58 'y' ++ ['\n']))).length)
          ++ ", your appointment is booked.".toList := by
  decide

/-- C10 (amended): for every input, of any length and content, the greeting
`loadCitizenData` formats is `"Hello "`, then the first `min(49, length)`
characters of the name cut before their first NUL if they hold one (inserted as
data, whatever they are), then `", your appointment is booked."`; its length is
at most 35 + 49 = 84, strictly below the 99 characters `buffer` can hold, so
`snprintf` never truncates: it reports the length of what `buffer` holds, and
`buffer` holds the whole expansion and its terminator. -/
theorem greeting_never_truncated (w : World) :
    greetingOf w
      = "Hello ".toList
          ++ cstr ((namePart w.stdin).take (min 49 (namePart w.stdin).length))
          ++ ", your appointment is booked.".toList ∧
    (greetingOf w).length ≤ 35 + 49 ∧
    35 + 49 < bufferCap - 1 ∧
    (loadCitizenDataBody w).1.formatted = (greetingOf w).length ∧
    (loadCitizenDataBody w).1.buffer
      = formatS greetingFormat [cstr (loadCitizenDataBody w).1.name] ++ [NUL] := by
  have hmin : (namePart w.stdin).take (min 49 (namePart w.stdin).length)
      = (namePart w.stdin).take 49 := by
    rcases Nat.le_total 49 (namePart w.stdin).length with h | h
    · rw [Nat.min_eq_left h]
    · rw [Nat.min_eq_right h, List.take_length, List.take_of_length_le h]
  refine ⟨?_, greeting_length_le w, by decide, ?_, ?_⟩
  · rw [hmin, greeting_printed]
  · rw [formatted_eq, greeting_printed]
  · rw [buffer_written, name_written, cstr_snoc_nul, formatS_greeting]

end KioskApp
